import Mathlib

/-!
Shallow embedding of `numpy/core/src/multiarray/na_mask.c` (NA-mask
management for strided multidimensional arrays) together with proofs about
the three entry points `PyArray_HasNASupport`, `PyArray_ContainsNA` and
`PyArray_AllocateMaskNA`.

Machine integers (`npy_intp`) are modelled as `Int`/`Nat` (sizes are
non-negative), byte buffers as total functions `Int → Nat` from byte offsets
to byte values, and the fallible external collaborators (`PyArray_malloc`,
the two casting entry points) as explicit oracles.
-/

set_option maxHeartbeats 1000000

/-- Mask element representation: the C source selects the dtype via
`multina ? NPY_MASK : NPY_BOOL` (na_mask.c line 94). -/
inductive MaskDtype where
  | bool
  | mask
deriving DecidableEq

/-- Element size of a mask dtype (`maskna_dtype->elsize`). Modelled from the
spec: the descriptor registry is an external collaborator; both recognized
representations are byte-sized (`NPY_BOOL` is one byte, `NPY_MASK` is
`npy_uint8`), so each has element size 1. -/
def MaskDtype.elsize : MaskDtype → Nat
  | .bool => 1
  | .mask => 1

/-- Error taxonomy of `PyArray_AllocateMaskNA` (the C function returns -1
with a Python exception set: RuntimeError for fields, MemoryError for
malloc failure, or a propagated cast failure). -/
inductive MaskErr where
  | unsupported
  | noMemory
  | castFail
deriving DecidableEq

/-- The facet of `PyArrayObject_fieldaccess` that na_mask.c reads and
writes: shape/stride metadata, the capability flags `NPY_ARRAY_MASKNA` and
`NPY_ARRAY_OWNMASKNA`, whether the dtype has fields (`PyArray_HASFIELDS`),
and the mask triple (dtype, data buffer, strides). The rank `nd` is the
length of `dimensions`; the mask data pointer is modelled as a byte buffer
`Int → Nat` based at offset 0. -/
structure NAArray where
  dimensions : List Nat
  strides : List Int
  hasFields : Bool
  flagMASKNA : Bool
  flagOWNMASKNA : Bool
  maskna_dtype : MaskDtype
  maskna_data : Int → Nat
  maskna_strides : List Int

/-- Rank of the array (`fa->nd`). -/
def NAArray.nd (a : NAArray) : Nat := a.dimensions.length

/-- Total number of logical elements (`PyArray_SIZE`, the product of the
dimension extents; 1 for rank 0). -/
def PyArray_SIZE (a : NAArray) : Nat := a.dimensions.prod

/-- na_mask.c lines 29-33: returns true iff the array has an NA mask
(`PyArray_HASMASKNA`, i.e. the `NPY_ARRAY_MASKNA` flag). -/
def PyArray_HasNASupport (a : NAArray) : Bool := a.flagMASKNA

/-- na_mask.c lines 41-52: returns false without NA support; otherwise the
body is the documented stub (`TODO: Loop through NA mask`) and returns
false unconditionally. -/
def PyArray_ContainsNA (a : NAArray) : Bool :=
  if !(PyArray_HasNASupport a) then
    false
  else
    false

/-- Write one byte into a buffer. -/
def updByte (b : Int → Nat) (addr : Int) (v : Nat) : Int → Nat :=
  fun x => if x = addr then v else b x

/-- `memset(dst, 1, n)` on a freshly allocated buffer whose uninitialized
contents are `fresh`: bytes 0..n-1 become 1. -/
def memset1 (fresh : Int → Nat) (n : Nat) : Int → Nat :=
  fun a => if 0 ≤ a ∧ a < (n : Int) then 1 else fresh a

/-- `memcpy(dst, src, n)` into a freshly allocated buffer. -/
def memcpyBytes (src fresh : Int → Nat) (n : Nat) : Int → Nat :=
  fun a => if 0 ≤ a ∧ a < (n : Int) then src a else fresh a

/-- Value conversion performed per element by the casting entry points.
Modelled from the spec: the cast primitive is an external collaborator and
must be value-preserving on the NA/available status (0 denotes NA, nonzero
denotes available for both variants); a cast into the Boolean
representation must land in its value set {0,1}, so nonzero codes collapse
to 1, while the MultiNA representation keeps the byte code. -/
def maskCastValue (srcdt dstdt : MaskDtype) (v : Nat) : Nat :=
  match srcdt, dstdt with
  | _, .bool => if v = 0 then 0 else 1
  | _, .mask => v

/-- Strided 1-D element-wise cast, `PyArray_CastRawArrays(count, src, dst,
srcStride, dstStride, srcdt, dstdt, 0)`. Modelled from the spec: the cast
utility is an external collaborator that converts element `i` read at byte
offset `i * srcStride` and stores it at byte offset `i * dstStride`. -/
def castRawArrays1D (count : Nat) (src fresh : Int → Nat)
    (srcStride dstStride : Int) (srcdt dstdt : MaskDtype) : Int → Nat :=
  (List.range count).foldl
    (fun b (i : Nat) => updByte b ((i : Int) * dstStride)
      (maskCastValue srcdt dstdt (src ((i : Int) * srcStride)))) fresh

/-- All logical multi-indices of a shape, in logical (lexicographic, first
axis outermost) order. -/
def allIndices : List Nat → List (List Nat)
  | [] => [[]]
  | n :: rest => (List.range n).flatMap fun i => (allIndices rest).map (i :: ·)

/-- Byte offset of a logical multi-index under a list of byte strides:
the sum of index times stride over the axes. -/
def stridedOffset (idx : List Nat) (strides : List Int) : Int :=
  (List.zipWith (fun (i : Nat) (s : Int) => (i : Int) * s) idx strides).sum

/-- Strided N-D element-wise cast, `PyArray_CastRawNDimArrays(nd, shape,
src, dst, srcStrides, dstStrides, srcdt, dstdt, 0)`. Modelled from the
spec: iterates the logical indices in logical axis order, converting the
element read at the source offset and storing it at the destination
offset. -/
def castRawNDimArrays (shape : List Nat) (src fresh : Int → Nat)
    (srcStrides dstStrides : List Int) (srcdt dstdt : MaskDtype) : Int → Nat :=
  (allIndices shape).foldl
    (fun b idx => updByte b (stridedOffset idx dstStrides)
      (maskCastValue srcdt dstdt (src (stridedOffset idx srcStrides)))) fresh

/-- Comparison used to discover the array's memory order: axis `a` comes
before axis `b` when its data stride has strictly smaller absolute value,
with ties broken by the axis index. -/
def stridePermLe (strides : List Int) (a b : Nat) : Prop :=
  (strides.getD a 0).natAbs < (strides.getD b 0).natAbs ∨
    ((strides.getD a 0).natAbs = (strides.getD b 0).natAbs ∧ a ≤ b)

instance stridePermLeDec (strides : List Int) : DecidableRel (stridePermLe strides) :=
  fun a b => by unfold stridePermLe; exact inferInstance

instance stridePermLeTotal (strides : List Int) : IsTotal Nat (stridePermLe strides) where
  total a b := by
    unfold stridePermLe
    rcases Nat.lt_trichotomy (strides.getD a 0).natAbs (strides.getD b 0).natAbs with h | h | h
    · exact Or.inl (Or.inl h)
    · rcases Nat.le_total a b with hab | hab
      · exact Or.inl (Or.inr ⟨h, hab⟩)
      · exact Or.inr (Or.inr ⟨h.symm, hab⟩)
    · exact Or.inr (Or.inl h)

instance stridePermLeTrans (strides : List Int) : IsTrans Nat (stridePermLe strides) where
  trans a b c hab hbc := by
    unfold stridePermLe at *
    rcases hab with h1 | ⟨h1, h1'⟩ <;> rcases hbc with h2 | ⟨h2, h2'⟩
    · exact Or.inl (h1.trans h2)
    · exact Or.inl (h2 ▸ h1)
    · exact Or.inl (h1 ▸ h2)
    · exact Or.inr ⟨h1.trans h2, h1'.trans h2'⟩

/-- Modelled from the spec: `PyArray_CreateSortedStridePerm` (declared in
shape.h, implementation not part of this excerpt) discovers the array's
effective storage order by sorting the axes by ascending absolute data
stride, ties broken by the stable deterministic rule of keeping the lower
axis index first. The C source stores the permutation sorted the other way
round and walks it from its last entry to its first (na_mask.c line 144),
which traverses the axes exactly in this ascending order. -/
def sortedStridePerm (strides : List Int) : List Nat :=
  List.insertionSort (stridePermLe strides) (List.range strides.length)

/-- The stride-assignment loop of na_mask.c lines 143-148, walking the axes
in ascending stride-sorted order with a running stride accumulator:
`maskna_strides[i_perm] = stride; stride *= shape[i_perm]`. -/
def fillFold (shape : List Nat) (acc : List Int × Int) (perm : List Nat) :
    List Int × Int :=
  perm.foldl (fun a p => (a.1.set p a.2, a.2 * (shape.getD p 0 : Int))) acc

/-- The synthesized mask strides for a rank `shape.length` array: the loop
of na_mask.c lines 143-148 starting from `stride = elsize`. -/
def fillMaskStrides (elsize : Int) (shape : List Nat) (perm : List Nat) :
    List Int :=
  (fillFold shape (List.replicate shape.length 0, elsize) perm).1

/-- The commit point of na_mask.c lines 177-181 (together with the stride
installation of lines 132/165): store the mask dtype, data buffer and
strides, and set both `NPY_ARRAY_MASKNA` and `NPY_ARRAY_OWNMASKNA`. -/
def commitMask (arr : NAArray) (dt : MaskDtype) (data : Int → Nat)
    (mstr : List Int) : NAArray :=
  { arr with maskna_dtype := dt, maskna_data := data, maskna_strides := mstr,
             flagMASKNA := true, flagOWNMASKNA := true }

/-- na_mask.c lines 67-184, `PyArray_AllocateMaskNA(arr, ownmaskna,
multina)`. The external allocator and cast utility are modelled by the
oracles `mallocOk` (false means `PyArray_malloc` returned NULL) and
`castOk` (false means the casting entry point reported failure); `fresh`
is the uninitialized contents of the newly malloc'ed buffer. On failure
the error is returned together with the array state as it stands at the
`return -1` statement, so that state changes on error paths are visible. -/
def PyArray_AllocateMaskNA (arr : NAArray) (ownmaskna multina : Bool)
    (mallocOk castOk : Bool) (fresh : Int → Nat) :
    Except (MaskErr × NAArray) NAArray :=
  -- lines 75-78: if the array already owns a mask, done
  if arr.flagOWNMASKNA then Except.ok arr
  -- lines 80-83: if ownership wasn't requested and there's already a mask, done
  else if !ownmaskna && arr.flagMASKNA then Except.ok arr
  -- lines 87-92: field dtypes are not supported
  else if arr.hasFields then Except.error (MaskErr.unsupported, arr)
  else
    -- lines 94-95: create the mask dtype
    let maskna_dtype := if multina then MaskDtype.mask else MaskDtype.bool
    let size := PyArray_SIZE arr
    -- lines 101-107: allocate the mask memory
    if !mallocOk then Except.error (MaskErr.noMemory, arr)
    -- lines 110-133: the one-dimensional case
    else if arr.nd = 1 then
      if arr.flagMASKNA then
        if arr.maskna_strides.getD 0 0 = 1 then
          Except.ok (commitMask arr maskna_dtype
            (memcpyBytes arr.maskna_data fresh (size * maskna_dtype.elsize))
            [(maskna_dtype.elsize : Int)])
        else if !castOk then Except.error (MaskErr.castFail, arr)
        else
          Except.ok (commitMask arr maskna_dtype
            (castRawArrays1D (arr.dimensions.getD 0 0) arr.maskna_data fresh
              (arr.maskna_strides.getD 0 0) (maskna_dtype.elsize : Int)
              arr.maskna_dtype maskna_dtype)
            [(maskna_dtype.elsize : Int)])
      else
        Except.ok (commitMask arr maskna_dtype
          (memset1 fresh (size * maskna_dtype.elsize))
          [(maskna_dtype.elsize : Int)])
    -- lines 134-166: the multidimensional case
    else if 1 < arr.nd then
      let mstr := fillMaskStrides (maskna_dtype.elsize : Int) arr.dimensions
        (sortedStridePerm arr.strides)
      if arr.flagMASKNA then
        if !castOk then Except.error (MaskErr.castFail, arr)
        else
          Except.ok (commitMask arr maskna_dtype
            (castRawNDimArrays arr.dimensions arr.maskna_data fresh
              arr.maskna_strides mstr arr.maskna_dtype maskna_dtype)
            mstr)
      else
        Except.ok (commitMask arr maskna_dtype
          (memset1 fresh (size * maskna_dtype.elsize)) mstr)
    -- lines 167-175: the zero-dimensional case
    else
      if arr.flagMASKNA then
        Except.ok (commitMask arr maskna_dtype
          (updByte fresh 0 (arr.maskna_data 0)) arr.maskna_strides)
      else
        Except.ok (commitMask arr maskna_dtype (updByte fresh 0 1)
          arr.maskna_strides)

/-- Mask cell of a logical multi-index: the byte of the mask buffer at the
offset determined by the mask strides. A cell value of 0 denotes NA,
nonzero denotes available, for both representations. -/
def NAArray.maskCell (a : NAArray) (idx : List Nat) : Nat :=
  a.maskna_data (stridedOffset idx a.maskna_strides)

/-- Mixed-radix value of a digit list with respect to a radix list: the
offset (in elements) that a digit vector reaches in a packed layout. -/
def mixedVal : List Nat → List Nat → Nat
  | d :: ds, r :: rs => d + r * mixedVal ds rs
  | _, _ => 0

/-! ### Helper lemmas -/

theorem MaskDtype.elsize_eq_one (dt : MaskDtype) : dt.elsize = 1 := by
  cases dt <;> rfl

theorem map_getD_range {α : Type} (l : List α) (d : α) :
    (List.range l.length).map (fun k => l.getD k d) = l := by
  induction l with
  | nil => simp
  | cons a t ih =>
    rw [List.length_cons, List.range_succ_eq_map, List.map_cons, List.map_map]
    simp only [List.getD_cons_zero]
    simpa [Function.comp_def, List.getElem?_cons_succ] using ih

theorem stridedOffset_eq_sum_range (idx : List Nat) (strides : List Int)
    (h : idx.length = strides.length) :
    stridedOffset idx strides =
      ((List.range strides.length).map
        (fun k => (idx.getD k 0 : Int) * strides.getD k 0)).sum := by
  induction strides generalizing idx with
  | nil => simp [stridedOffset]
  | cons s t ih =>
    cases idx with
    | nil => simp at h
    | cons i it =>
      simp only [List.length_cons, Nat.succ.injEq] at h
      rw [List.length_cons, List.range_succ_eq_map, List.map_cons, List.map_map]
      unfold stridedOffset
      rw [List.zipWith_cons_cons, List.sum_cons]
      simp only [List.getD_cons_zero]
      congr 1
      simpa [stridedOffset, Function.comp_def, List.getElem?_cons_succ] using ih it h

theorem sortedStridePerm_perm (strides : List Int) :
    List.Perm (sortedStridePerm strides) (List.range strides.length) :=
  List.perm_insertionSort _ _

theorem sortedStridePerm_nodup (strides : List Int) :
    (sortedStridePerm strides).Nodup :=
  (sortedStridePerm_perm strides).nodup_iff.mpr (List.nodup_range _)

theorem mem_sortedStridePerm {strides : List Int} {p : Nat} :
    p ∈ sortedStridePerm strides ↔ p < strides.length := by
  rw [(sortedStridePerm_perm strides).mem_iff, List.mem_range]

theorem sortedStridePerm_length (strides : List Int) :
    (sortedStridePerm strides).length = strides.length := by
  rw [(sortedStridePerm_perm strides).length_eq, List.length_range]

theorem sortedStridePerm_sorted (strides : List Int) :
    List.Sorted (stridePermLe strides) (sortedStridePerm strides) :=
  List.sorted_insertionSort _ _

theorem fillFold_cons (shape : List Nat) (init : List Int) (e : Int)
    (p : Nat) (t : List Nat) :
    fillFold shape (init, e) (p :: t) =
      fillFold shape (init.set p e, e * (shape.getD p 0 : Int)) t := rfl

theorem fillFold_fst_length (shape : List Nat) (perm : List Nat) :
    ∀ (init : List Int) (e : Int),
    (fillFold shape (init, e) perm).1.length = init.length := by
  induction perm with
  | nil => intro init e; rfl
  | cons p t ih =>
    intro init e
    rw [fillFold_cons, ih]
    exact List.length_set ..

theorem fillFold_getD_notmem (shape : List Nat) (perm : List Nat) :
    ∀ (init : List Int) (e : Int) (p : Nat), p ∉ perm →
    (fillFold shape (init, e) perm).1.getD p 0 = init.getD p 0 := by
  induction perm with
  | nil => intro init e p _; rfl
  | cons q t ih =>
    intro init e p hp
    rw [fillFold_cons, ih _ _ _ (fun h => hp (List.mem_cons_of_mem _ h))]
    have hqp : q ≠ p := fun h => hp (h ▸ List.mem_cons_self _ _)
    simp [List.getD_eq_getElem?_getD, List.getElem?_set_ne hqp]

theorem fillFold_getD_pos (shape : List Nat) (perm : List Nat) :
    ∀ (init : List Int) (e : Int), perm.Nodup →
    (∀ q ∈ perm, q < init.length) →
    ∀ j (hj : j < perm.length),
    (fillFold shape (init, e) perm).1.getD (perm.get ⟨j, hj⟩) 0
      = e * (((perm.take j).map (fun q => (shape.getD q 0 : Int))).prod) := by
  induction perm with
  | nil => intro init e _ _ j hj; simp at hj
  | cons p t ih =>
    intro init e hnd hlt j hj
    rw [fillFold_cons]
    cases j with
    | zero =>
      have hpt : p ∉ t := (List.nodup_cons.mp hnd).1
      have hplen : p < init.length := hlt p (List.mem_cons_self _ _)
      show (fillFold shape (init.set p e, _) t).1.getD p 0 = _
      rw [fillFold_getD_notmem _ _ _ _ _ hpt]
      simp [List.getD_eq_getElem?_getD, List.getElem?_set_self, hplen]
    | succ j' =>
      have hj' : j' < t.length := by simpa using hj
      show (fillFold shape (init.set p e, _) t).1.getD (t.get ⟨j', hj'⟩) 0 = _
      rw [ih _ _ (List.nodup_cons.mp hnd).2
        (fun q hq => by
          rw [List.length_set]
          exact hlt q (List.mem_cons_of_mem _ hq)) j' hj']
      rw [List.take_succ_cons, List.map_cons, List.prod_cons]
      ring

theorem fillMaskStrides_length (e : Int) (shape : List Nat) (perm : List Nat) :
    (fillMaskStrides e shape perm).length = shape.length := by
  unfold fillMaskStrides
  rw [fillFold_fst_length]
  exact List.length_replicate ..

theorem fillMaskStrides_getD (e : Int) (shape : List Nat) (strides : List Int)
    (hlen : strides.length = shape.length) (j : Nat)
    (hj : j < (sortedStridePerm strides).length) :
    (fillMaskStrides e shape (sortedStridePerm strides)).getD
        ((sortedStridePerm strides).get ⟨j, hj⟩) 0
      = e * (((sortedStridePerm strides).take j).map
          (fun q => (shape.getD q 0 : Int))).prod := by
  unfold fillMaskStrides
  exact fillFold_getD_pos shape _ _ e (sortedStridePerm_nodup strides)
    (fun q hq => by
      rw [List.length_replicate, ← hlen]
      exact mem_sortedStridePerm.mp hq) j hj

theorem mixedVal_lt {ds rs : List Nat} (h : List.Forall₂ (· < ·) ds rs) :
    mixedVal ds rs < rs.prod := by
  induction h with
  | nil => simp [mixedVal]
  | @cons d r ds' rs' hdr _ ih =>
    show d + r * mixedVal ds' rs' < (r :: rs').prod
    rw [List.prod_cons]
    calc d + r * mixedVal ds' rs' < r + r * mixedVal ds' rs' := by omega
    _ = r * (mixedVal ds' rs' + 1) := by ring
    _ ≤ r * rs'.prod := Nat.mul_le_mul_left r ih

theorem mixedVal_inj : ∀ (rs ds ds' : List Nat),
    List.Forall₂ (· < ·) ds rs → List.Forall₂ (· < ·) ds' rs →
    mixedVal ds rs = mixedVal ds' rs → ds = ds' := by
  intro rs
  induction rs with
  | nil =>
    intro ds ds' h h' _
    rw [List.forall₂_nil_right_iff.mp h, List.forall₂_nil_right_iff.mp h']
  | cons r rt ih =>
    intro ds ds' h h' heq
    rcases List.forall₂_cons_right_iff.mp h with ⟨d, dt, hd, hdt, rfl⟩
    rcases List.forall₂_cons_right_iff.mp h' with ⟨d', dt', hd', hdt', rfl⟩
    have heq' : d + r * mixedVal dt rt = d' + r * mixedVal dt' rt := heq
    have hr : 0 < r := lt_of_le_of_lt (Nat.zero_le d) hd
    have hdd : d = d' := by
      have h1 := congrArg (· % r) heq'
      simpa [Nat.add_mul_mod_self_left, Nat.mod_eq_of_lt hd, Nat.mod_eq_of_lt hd'] using h1
    subst hdd
    have hmm : mixedVal dt rt = mixedVal dt' rt :=
      Nat.eq_of_mul_eq_mul_left hr (Nat.add_left_cancel heq')
    rw [ih dt dt' hdt hdt' hmm]

theorem map_sum_fillFold (shape idx : List Nat) : ∀ (perm : List Nat)
    (init : List Int) (e : Int), perm.Nodup →
    (∀ q ∈ perm, q < init.length) →
    (perm.map (fun p => (idx.getD p 0 : Int) *
        (fillFold shape (init, e) perm).1.getD p 0)).sum
      = e * (mixedVal (perm.map (fun p => idx.getD p 0))
          (perm.map (fun p => shape.getD p 0)) : Int) := by
  intro perm
  induction perm with
  | nil => intro init e _ _; simp [mixedVal]
  | cons p t ih =>
    intro init e hnd hlt
    rw [List.map_cons, List.sum_cons, fillFold_cons]
    have hpt : p ∉ t := (List.nodup_cons.mp hnd).1
    have hp : p < init.length := hlt p (List.mem_cons_self _ _)
    have hhead :
        (fillFold shape (init.set p e, e * (shape.getD p 0 : Int)) t).1.getD p 0 = e := by
      rw [fillFold_getD_notmem _ _ _ _ _ hpt]
      simp [List.getD_eq_getElem?_getD, List.getElem?_set_self, hp]
    rw [hhead]
    rw [ih (init.set p e) (e * (shape.getD p 0 : Int)) (List.nodup_cons.mp hnd).2
      (fun q hq => by
        rw [List.length_set]
        exact hlt q (List.mem_cons_of_mem _ hq))]
    simp only [List.map_cons]
    show (idx.getD p 0 : Int) * e + _ = _
    rw [show mixedVal (idx.getD p 0 :: t.map (fun p => idx.getD p 0))
        (shape.getD p 0 :: t.map (fun p => shape.getD p 0))
        = idx.getD p 0 + shape.getD p 0 *
            mixedVal (t.map (fun p => idx.getD p 0))
              (t.map (fun p => shape.getD p 0)) from rfl]
    push_cast
    ring

theorem stridedOffset_fillMaskStrides (e : Int) (shape : List Nat)
    (strides : List Int) (idx : List Nat)
    (hlen : strides.length = shape.length) (hidx : idx.length = shape.length) :
    stridedOffset idx (fillMaskStrides e shape (sortedStridePerm strides))
      = e * (mixedVal ((sortedStridePerm strides).map (fun p => idx.getD p 0))
          ((sortedStridePerm strides).map (fun p => shape.getD p 0)) : Int) := by
  have hml : (fillMaskStrides e shape (sortedStridePerm strides)).length
      = shape.length := fillMaskStrides_length ..
  rw [stridedOffset_eq_sum_range _ _ (by rw [hml, hidx]), hml, ← hlen]
  rw [← ((sortedStridePerm_perm strides).map
    (fun p => (idx.getD p 0 : Int) *
      (fillMaskStrides e shape (sortedStridePerm strides)).getD p 0)).sum_eq]
  exact map_sum_fillFold shape idx _ _ e (sortedStridePerm_nodup strides)
    (fun q hq => by
      rw [List.length_replicate, ← hlen]
      exact mem_sortedStridePerm.mp hq)

theorem forall₂_lt_getD {idx shape : List Nat}
    (h : List.Forall₂ (· < ·) idx shape) :
    ∀ p, p < shape.length → idx.getD p 0 < shape.getD p 0 := by
  induction h with
  | nil => intro p hp; simp at hp
  | cons hd _ ih =>
    intro p hp
    cases p with
    | zero => simpa using hd
    | succ p' =>
      simp only [List.getD_cons_succ]
      exact ih p' (by simpa using hp)

theorem forall₂_map_same {α β γ : Type} (l : List α) (f : α → β) (g : α → γ)
    (R : β → γ → Prop) (h : ∀ x ∈ l, R (f x) (g x)) :
    List.Forall₂ R (l.map f) (l.map g) := by
  induction l with
  | nil => simp
  | cons a t ih =>
    simp only [List.map_cons]
    exact List.Forall₂.cons (h a (List.mem_cons_self _ _))
      (ih (fun x hx => h x (List.mem_cons_of_mem _ hx)))

theorem stridedOffset_fill_inj {e : Int} (he : 0 < e) {shape : List Nat}
    {strides : List Int} (hlen : strides.length = shape.length)
    {idx idx' : List Nat}
    (h : List.Forall₂ (· < ·) idx shape) (h' : List.Forall₂ (· < ·) idx' shape)
    (heq : stridedOffset idx (fillMaskStrides e shape (sortedStridePerm strides))
      = stridedOffset idx' (fillMaskStrides e shape (sortedStridePerm strides))) :
    idx = idx' := by
  have hil : idx.length = shape.length := h.length_eq
  have hil' : idx'.length = shape.length := h'.length_eq
  rw [stridedOffset_fillMaskStrides e shape strides idx hlen hil,
    stridedOffset_fillMaskStrides e shape strides idx' hlen hil'] at heq
  have hM : mixedVal ((sortedStridePerm strides).map (fun p => idx.getD p 0))
        ((sortedStridePerm strides).map (fun p => shape.getD p 0))
      = mixedVal ((sortedStridePerm strides).map (fun p => idx'.getD p 0))
        ((sortedStridePerm strides).map (fun p => shape.getD p 0)) := by
    have := mul_left_cancel₀ (ne_of_gt he) heq
    exact_mod_cast this
  have hdig := mixedVal_inj _ _ _
    (forall₂_map_same _ _ _ _ (fun p hp =>
      forall₂_lt_getD h p (hlen ▸ mem_sortedStridePerm.mp hp)))
    (forall₂_map_same _ _ _ _ (fun p hp =>
      forall₂_lt_getD h' p (hlen ▸ mem_sortedStridePerm.mp hp)))
    hM
  have hpt : ∀ p ∈ sortedStridePerm strides, idx.getD p 0 = idx'.getD p 0 :=
    List.map_inj_left.mp hdig
  apply List.ext_getElem (by rw [hil, hil'])
  intro i h1 h2
  have hi : i < shape.length := by rwa [hil] at h1
  have := hpt i (mem_sortedStridePerm.mpr (by rwa [hlen]))
  rwa [List.getD_eq_getElem _ _ h1, List.getD_eq_getElem _ _ h2] at this

theorem stridedOffset_fill_bounds {e : Int} (he : 0 ≤ e) {shape : List Nat}
    {strides : List Int} (hlen : strides.length = shape.length)
    {idx : List Nat} (h : List.Forall₂ (· < ·) idx shape) :
    0 ≤ stridedOffset idx (fillMaskStrides e shape (sortedStridePerm strides)) ∧
    stridedOffset idx (fillMaskStrides e shape (sortedStridePerm strides)) + e
      ≤ e * (shape.prod : Int) := by
  have hil : idx.length = shape.length := h.length_eq
  rw [stridedOffset_fillMaskStrides e shape strides idx hlen hil]
  have hprod : ((sortedStridePerm strides).map (fun p => shape.getD p 0)).prod
      = shape.prod := by
    have h1 := ((sortedStridePerm_perm strides).map
      (fun p => shape.getD p 0)).prod_eq
    rw [h1, hlen]
    rw [map_getD_range shape 0]
  have hlt := mixedVal_lt (forall₂_map_same _ _ _ _ (fun p hp =>
    forall₂_lt_getD h p (hlen ▸ mem_sortedStridePerm.mp hp)))
  rw [hprod] at hlt
  constructor
  · positivity
  · calc e * (mixedVal _ _ : Int) + e = e * ((mixedVal _ _ : Int) + 1) := by ring
    _ ≤ e * (shape.prod : Int) := by
        apply mul_le_mul_of_nonneg_left _ he
        exact_mod_cast Nat.succ_le_of_lt hlt

theorem mem_allIndices {shape idx : List Nat} :
    idx ∈ allIndices shape ↔ List.Forall₂ (· < ·) idx shape := by
  induction shape generalizing idx with
  | nil =>
    simp only [allIndices, List.mem_singleton, List.forall₂_nil_right_iff]
  | cons n rest ih =>
    simp only [allIndices, List.mem_flatMap, List.mem_map, List.mem_range]
    constructor
    · rintro ⟨i, hi, t, ht, rfl⟩
      exact List.Forall₂.cons hi (ih.mp ht)
    · intro hf
      rcases List.forall₂_cons_right_iff.mp hf with ⟨i, t, hi, ht, rfl⟩
      exact ⟨i, hi, t, ih.mpr ht, rfl⟩

theorem nodup_allIndices (shape : List Nat) : (allIndices shape).Nodup := by
  induction shape with
  | nil => simp [allIndices]
  | cons n rest ih =>
    rw [allIndices, List.nodup_flatMap]
    constructor
    · intro i _
      exact ih.map (fun a b h => by injection h)
    · apply List.Pairwise.imp_of_mem _ (List.nodup_range n)
      intro i j _ _ hij
      intro x hx hx'
      rcases List.mem_map.mp hx with ⟨t, _, rfl⟩
      rcases List.mem_map.mp hx' with ⟨t', _, he⟩
      exact hij (by injection he with h1 h2; exact h1.symm)

theorem foldl_upd_notmem {α : Type} (l : List α) (dstA : α → Int)
    (srcV : α → Nat) : ∀ (b0 : Int → Nat) (a : Int), (∀ x ∈ l, dstA x ≠ a) →
    (l.foldl (fun b x => updByte b (dstA x) (srcV x)) b0) a = b0 a := by
  induction l with
  | nil => intro b0 a _; rfl
  | cons y t ih =>
    intro b0 a hne
    rw [List.foldl_cons, ih _ _ (fun x hx => hne x (List.mem_cons_of_mem _ hx))]
    have : a ≠ dstA y := fun h => hne y (List.mem_cons_self _ _) h.symm
    simp [updByte, this]

theorem foldl_upd_mem {α : Type} (l : List α) (dstA : α → Int)
    (srcV : α → Nat) : ∀ (b0 : Int → Nat), l.Nodup →
    ∀ x ∈ l, (∀ y ∈ l, dstA y = dstA x → y = x) →
    (l.foldl (fun b x => updByte b (dstA x) (srcV x)) b0) (dstA x) = srcV x := by
  induction l with
  | nil => intro b0 _ x hx; simp at hx
  | cons z t ih =>
    intro b0 hnd x hx hinj
    rw [List.foldl_cons]
    rcases List.mem_cons.mp hx with rfl | hxt
    · rw [foldl_upd_notmem]
      · simp [updByte]
      · intro y hy he
        have := hinj y (List.mem_cons_of_mem _ hy) he
        exact absurd (this ▸ hy) (List.nodup_cons.mp hnd).1
    · exact ih _ (List.nodup_cons.mp hnd).2 x hxt
        (fun y hy he => hinj y (List.mem_cons_of_mem _ hy) he)

theorem castRawArrays1D_at (count : Nat) (src fresh : Int → Nat)
    (srcStride : Int) (srcdt dstdt : MaskDtype) (i : Nat) (hi : i < count) :
    castRawArrays1D count src fresh srcStride 1 srcdt dstdt (i : Int)
      = maskCastValue srcdt dstdt (src ((i : Int) * srcStride)) := by
  unfold castRawArrays1D
  have h := foldl_upd_mem (List.range count)
    (fun j => (j : Int) * 1)
    (fun j => maskCastValue srcdt dstdt (src ((j : Int) * srcStride)))
    fresh (List.nodup_range count) i (List.mem_range.mpr hi)
    (fun y _ hy => by
      have : (y : Int) = i := by simpa using hy
      exact_mod_cast this)
  simpa using h

theorem castRawArrays1D_outside (count : Nat) (src fresh : Int → Nat)
    (srcStride : Int) (srcdt dstdt : MaskDtype) (a : Int)
    (ha : ∀ i : Nat, i < count → (i : Int) ≠ a) :
    castRawArrays1D count src fresh srcStride 1 srcdt dstdt a = fresh a := by
  unfold castRawArrays1D
  exact foldl_upd_notmem _ _ _ _ _
    (fun i hi => by simpa using ha i (List.mem_range.mp hi))

theorem castRawNDimArrays_at {e : Int} (he : 0 < e) {shape : List Nat}
    {strides : List Int} (hlen : strides.length = shape.length)
    (src fresh : Int → Nat) (srcStrides : List Int) (srcdt dstdt : MaskDtype)
    {idx : List Nat} (hidx : List.Forall₂ (· < ·) idx shape) :
    castRawNDimArrays shape src fresh srcStrides
        (fillMaskStrides e shape (sortedStridePerm strides)) srcdt dstdt
        (stridedOffset idx (fillMaskStrides e shape (sortedStridePerm strides)))
      = maskCastValue srcdt dstdt (src (stridedOffset idx srcStrides)) := by
  unfold castRawNDimArrays
  exact foldl_upd_mem (allIndices shape)
    (fun j => stridedOffset j (fillMaskStrides e shape (sortedStridePerm strides)))
    (fun j => maskCastValue srcdt dstdt (src (stridedOffset j srcStrides)))
    fresh (nodup_allIndices shape) idx (mem_allIndices.mpr hidx)
    (fun y hy hy' =>
      stridedOffset_fill_inj he hlen (mem_allIndices.mp hy) hidx hy')

/-! ### Concrete example arrays used by witnesses and counterexamples -/

/-- Rank-1 array of two elements with a borrowed Boolean mask; element 0 is
NA, element 1 is available. -/
def exBorrowed : NAArray :=
  { dimensions := [2], strides := [1], hasFields := false,
    flagMASKNA := true, flagOWNMASKNA := false, maskna_dtype := .bool,
    maskna_data := fun a => if a = 0 then 0 else 1, maskna_strides := [1] }

/-- Rank-1 array that already owns its Boolean mask. -/
def exOwned : NAArray :=
  { dimensions := [2], strides := [1], hasFields := false,
    flagMASKNA := true, flagOWNMASKNA := true, maskna_dtype := .bool,
    maskna_data := fun _ => 1, maskna_strides := [1] }

/-- Rank-1 array with a structured/field element layout and no mask. -/
def exFields : NAArray :=
  { dimensions := [2], strides := [1], hasFields := true,
    flagMASKNA := false, flagOWNMASKNA := false, maskna_dtype := .bool,
    maskna_data := fun _ => 0, maskna_strides := [] }

/-- Rank-1 array with a structured/field element layout that already owns a
mask (a state the data-model invariants do not exclude). -/
def exFieldsOwn : NAArray :=
  { dimensions := [2], strides := [1], hasFields := true,
    flagMASKNA := true, flagOWNMASKNA := true, maskna_dtype := .bool,
    maskna_data := fun _ => 1, maskna_strides := [1] }

/-- Rank-2 array with a zero extent on the axis of smallest stride and no
mask: shape 0 x 7, data strides [1, 100]. -/
def exZeroExtent : NAArray :=
  { dimensions := [0, 7], strides := [1, 100], hasFields := false,
    flagMASKNA := false, flagOWNMASKNA := false, maskna_dtype := .bool,
    maskna_data := fun _ => 0, maskna_strides := [] }

/-- Rank-1 single-element array with a borrowed MultiNA mask whose cell
holds the available-with-payload code 2. -/
def exMask2 : NAArray :=
  { dimensions := [1], strides := [1], hasFields := false,
    flagMASKNA := true, flagOWNMASKNA := false, maskna_dtype := .mask,
    maskna_data := fun a => if a = 0 then 2 else 0, maskna_strides := [1] }

/-- The spec's concrete scenario: 2 x 3 row-major array, data strides
[3, 1], no prior mask. -/
def ex23 : NAArray :=
  { dimensions := [2, 3], strides := [3, 1], hasFields := false,
    flagMASKNA := false, flagOWNMASKNA := false, maskna_dtype := .bool,
    maskna_data := fun _ => 0, maskna_strides := [] }

/-- Rank-2 array with a borrowed Boolean mask laid out in the transposed
stride order; logical element (0,0) is NA, the rest available. -/
def exMig : NAArray :=
  { dimensions := [2, 2], strides := [1, 2], hasFields := false,
    flagMASKNA := true, flagOWNMASKNA := false, maskna_dtype := .bool,
    maskna_data := fun a => if a = 0 then 0 else 1, maskna_strides := [2, 1] }

/-! ### Claim C2 -/

/-- C2: whenever `PyArray_AllocateMaskNA` returns an error (unsupported
field layout, allocation failure, or cast failure during migration), the
array state carried at the failing `return -1` is exactly the input array:
nothing is mutated on any error path. -/
theorem c2_error_leaves_array_unchanged
    (arr : NAArray) (ownmaskna multina mallocOk castOk : Bool)
    (fresh : Int → Nat) (e : MaskErr) (a' : NAArray)
    (h : PyArray_AllocateMaskNA arr ownmaskna multina mallocOk castOk fresh
      = Except.error (e, a')) : a' = arr := by
  unfold PyArray_AllocateMaskNA at h
  split_ifs at h <;> cases h <;> rfl

/-- C2 witness: a field-layout rejection really reaches the theorem's
hypothesis, and the carried state is the unchanged input. -/
theorem c2_witness :
    PyArray_AllocateMaskNA exFields false false true true (fun _ => 0)
      = Except.error (MaskErr.unsupported, exFields) ∧ exFields = exFields :=
  ⟨rfl, c2_error_leaves_array_unchanged exFields false false true true
    (fun _ => 0) MaskErr.unsupported exFields rfl⟩

/-! ### Claim C4 -/

/-- C4: the two idempotence early exits of na_mask.c lines 75-83: an array
that already owns its mask yields success with no change for any flags,
and an array with any mask yields success with no change when ownership is
not requested. -/
theorem c4_early_exit_idempotence
    (arr : NAArray) (ownmaskna multina mallocOk castOk : Bool)
    (fresh : Int → Nat)
    (h : arr.flagOWNMASKNA = true ∨ (ownmaskna = false ∧ arr.flagMASKNA = true)) :
    PyArray_AllocateMaskNA arr ownmaskna multina mallocOk castOk fresh
      = Except.ok arr := by
  unfold PyArray_AllocateMaskNA
  rcases h with h | ⟨h1, h2⟩
  · rw [if_pos h]
  · rcases hov : arr.flagOWNMASKNA with _ | _
    · rw [if_neg (by simp), if_pos (by simp [h1, h2])]
    · rfl

/-- C4 witness: both early exits fire on concrete arrays, with requests
that would otherwise change them. -/
theorem c4_witness :
    (exOwned.flagOWNMASKNA = true ∨ (true = false ∧ exOwned.flagMASKNA = true)) ∧
    (exBorrowed.flagOWNMASKNA = true ∨ (false = false ∧ exBorrowed.flagMASKNA = true)) ∧
    PyArray_AllocateMaskNA exOwned true true true true (fun _ => 0)
      = Except.ok exOwned ∧
    PyArray_AllocateMaskNA exBorrowed false true true true (fun _ => 0)
      = Except.ok exBorrowed :=
  ⟨Or.inl rfl, Or.inr ⟨rfl, rfl⟩,
    c4_early_exit_idempotence exOwned true true true true (fun _ => 0) (Or.inl rfl),
    c4_early_exit_idempotence exBorrowed false true true true (fun _ => 0)
      (Or.inr ⟨rfl, rfl⟩)⟩

/-! ### Claim C6 -/

/-- C6 counterexample: an array with a borrowed (non-owned) mask, asked for
a mask without forcing ownership, succeeds via the second early exit with
`ownsMask` still false, so success does not imply `hasMask ∧ ownsMask`. -/
theorem c6_counterexample :
    PyArray_AllocateMaskNA exBorrowed false false true true (fun _ => 0)
      = Except.ok exBorrowed ∧ exBorrowed.flagOWNMASKNA = false :=
  ⟨rfl, rfl⟩

/-- C6 (amended): on an array satisfying the data-model invariant
`ownsMask → hasMask`, success of `PyArray_AllocateMaskNA` guarantees
`hasMask`; it additionally guarantees `ownsMask` whenever ownership was
requested (`ownmaskna = true`). -/
theorem c6_success_postcondition
    (arr : NAArray) (ownmaskna multina mallocOk castOk : Bool)
    (fresh : Int → Nat) (post : NAArray)
    (hinv : arr.flagOWNMASKNA = true → arr.flagMASKNA = true)
    (h : PyArray_AllocateMaskNA arr ownmaskna multina mallocOk castOk fresh
      = Except.ok post) :
    post.flagMASKNA = true ∧ (ownmaskna = true → post.flagOWNMASKNA = true) := by
  unfold PyArray_AllocateMaskNA at h
  split_ifs at h <;> injection h with h' <;> subst h' <;>
    simp_all [commitMask]

/-- C6 witness: a full allocation run with ownership requested ends with
both flags set. -/
theorem c6_witness :
    (exBorrowed.flagOWNMASKNA = true → exBorrowed.flagMASKNA = true) ∧
    (match PyArray_AllocateMaskNA exBorrowed true false true true (fun _ => 0) with
      | Except.ok post => post.flagMASKNA = true ∧
          (true = true → post.flagOWNMASKNA = true)
      | Except.error _ => False) := by
  refine ⟨fun _ => rfl, ?_⟩
  exact c6_success_postcondition exBorrowed true false true true (fun _ => 0)
    _ (fun _ => rfl) rfl

/-! ### Claim C7 -/

/-- C7 counterexample: the field-layout check sits after the idempotence
early exits (na_mask.c line 76 versus line 88), so a field-typed array
that already owns a mask returns success, not `UnsupportedError`. -/
theorem c7_counterexample :
    exFieldsOwn.hasFields = true ∧
    PyArray_AllocateMaskNA exFieldsOwn false false true true (fun _ => 0)
      = Except.ok exFieldsOwn :=
  ⟨rfl, rfl⟩

/-- C7 (amended): for a field-typed array on which no idempotence early
exit fires (it does not own a mask, and either ownership is forced or no
mask is present), the call fails with `UnsupportedError` carrying the
completely unmodified array, for every allocator and cast oracle — the
check precedes any allocation. -/
theorem c7_fields_rejected
    (arr : NAArray) (ownmaskna multina mallocOk castOk : Bool)
    (fresh : Int → Nat)
    (hf : arr.hasFields = true) (hown : arr.flagOWNMASKNA = false)
    (hexit : ownmaskna = true ∨ arr.flagMASKNA = false) :
    PyArray_AllocateMaskNA arr ownmaskna multina mallocOk castOk fresh
      = Except.error (MaskErr.unsupported, arr) := by
  unfold PyArray_AllocateMaskNA
  rw [if_neg (by simp [hown]), if_neg (by rcases hexit with h | h <;> simp [h]),
    if_pos hf]

/-- C7 witness: the rejection fires on a concrete field-typed array even
with a failing allocator, showing no allocation is consulted. -/
theorem c7_witness :
    exFields.hasFields = true ∧ exFields.flagOWNMASKNA = false ∧
    PyArray_AllocateMaskNA exFields false false false false (fun _ => 0)
      = Except.error (MaskErr.unsupported, exFields) :=
  ⟨rfl, rfl, c7_fields_rejected exFields false false false false (fun _ => 0)
    rfl rfl (Or.inr rfl)⟩

/-! ### Claim C9 -/

/-- C9: the code bug in `PyArray_ContainsNA` (na_mask.c lines 41-52). Its
own documentation promises true when the array has NA support and an NA is
present anywhere, but the body is the `TODO` stub: on a concrete masked
array whose logical element [0] is NA (mask cell 0), the function still
returns false. -/
theorem c9_contains_na_stub_bug :
    PyArray_HasNASupport exBorrowed = true ∧
    exBorrowed.maskCell [0] = 0 ∧
    List.Forall₂ (· < ·) [0] exBorrowed.dimensions ∧
    PyArray_ContainsNA exBorrowed = false :=
  ⟨rfl, rfl, List.Forall₂.cons (by decide) List.Forall₂.nil, rfl⟩

/-! ### Claim C5 -/

theorem memset_commit_facts (arr : NAArray) (dt : MaskDtype)
    (fresh : Int → Nat) (mstr : List Int)
    (hcell : ∀ idx, List.Forall₂ (· < ·) idx arr.dimensions →
      0 ≤ stridedOffset idx mstr ∧
      stridedOffset idx mstr < ((PyArray_SIZE arr * dt.elsize : Nat) : Int)) :
    (∀ a : Int, 0 ≤ a →
      a < ((PyArray_SIZE arr *
        (commitMask arr dt (memset1 fresh (PyArray_SIZE arr * dt.elsize))
          mstr).maskna_dtype.elsize : Nat) : Int) →
      (commitMask arr dt (memset1 fresh (PyArray_SIZE arr * dt.elsize))
        mstr).maskna_data a = 1) ∧
    (∀ idx, List.Forall₂ (· < ·) idx arr.dimensions →
      (commitMask arr dt (memset1 fresh (PyArray_SIZE arr * dt.elsize))
        mstr).maskCell idx = 1) := by
  constructor
  · intro a h0 hlt
    simp only [commitMask] at hlt ⊢
    show memset1 fresh (PyArray_SIZE arr * dt.elsize) a = 1
    unfold memset1
    rw [if_pos ⟨h0, hlt⟩]
  · intro idx hidx
    rcases hcell idx hidx with ⟨h0, hlt⟩
    simp only [commitMask, NAArray.maskCell]
    show memset1 fresh (PyArray_SIZE arr * dt.elsize) _ = 1
    unfold memset1
    rw [if_pos ⟨h0, hlt⟩]

theorem cell_bounds_rank1 (arr : NAArray) (dt : MaskDtype) (hnd : arr.nd = 1) :
    ∀ idx, List.Forall₂ (· < ·) idx arr.dimensions →
      0 ≤ stridedOffset idx [(dt.elsize : Int)] ∧
      stridedOffset idx [(dt.elsize : Int)]
        < ((PyArray_SIZE arr * dt.elsize : Nat) : Int) := by
  intro idx hidx
  rcases List.length_eq_one.mp hnd with ⟨d, hd⟩
  rw [hd] at hidx
  rcases List.forall₂_cons_right_iff.mp hidx with ⟨i, t, hi, ht, rfl⟩
  rw [List.forall₂_nil_right_iff.mp ht]
  rw [MaskDtype.elsize_eq_one]
  unfold PyArray_SIZE
  rw [hd]
  simp [stridedOffset]
  exact_mod_cast hi

theorem cell_bounds_rankN (arr : NAArray) (dt : MaskDtype)
    (hlen : arr.strides.length = arr.dimensions.length) :
    ∀ idx, List.Forall₂ (· < ·) idx arr.dimensions →
      0 ≤ stridedOffset idx
          (fillMaskStrides (dt.elsize : Int) arr.dimensions
            (sortedStridePerm arr.strides)) ∧
      stridedOffset idx
          (fillMaskStrides (dt.elsize : Int) arr.dimensions
            (sortedStridePerm arr.strides))
        < ((PyArray_SIZE arr * dt.elsize : Nat) : Int) := by
  intro idx hidx
  have hb := stridedOffset_fill_bounds (e := (dt.elsize : Int))
    (by positivity) hlen hidx
  refine ⟨hb.1, ?_⟩
  have h2 := hb.2
  rw [MaskDtype.elsize_eq_one] at h2 ⊢
  unfold PyArray_SIZE
  push_cast at h2 ⊢
  omega

/-- C5: on an array with no prior mask (and satisfying the invariant
`ownsMask → hasMask`), a successful `PyArray_AllocateMaskNA` initializes
every byte of the new mask buffer's footprint to the byte value 1 (the
bulk `memset(.., 1, ..)` of na_mask.c lines 129/162, or the single store
of line 173), and hence every logical cell reads as 1, the available
(non-NA) value for both the Boolean and MultiNA representations. -/
theorem c5_fresh_mask_all_available
    (arr : NAArray) (ownmaskna multina mallocOk castOk : Bool)
    (fresh : Int → Nat) (post : NAArray)
    (hinv : arr.flagOWNMASKNA = true → arr.flagMASKNA = true)
    (hnomask : arr.flagMASKNA = false)
    (hlen : arr.strides.length = arr.dimensions.length)
    (h : PyArray_AllocateMaskNA arr ownmaskna multina mallocOk castOk fresh
      = Except.ok post) :
    (∀ a : Int, 0 ≤ a →
        a < ((PyArray_SIZE arr * post.maskna_dtype.elsize : Nat) : Int) →
        post.maskna_data a = 1) ∧
    (∀ idx, List.Forall₂ (· < ·) idx arr.dimensions → post.maskCell idx = 1) := by
  have hown : arr.flagOWNMASKNA = false := by
    rcases hov : arr.flagOWNMASKNA with _ | _
    · rfl
    · exact absurd (hinv hov) (by simp [hnomask])
  unfold PyArray_AllocateMaskNA at h
  rw [hown, hnomask] at h
  simp only [Bool.false_eq_true, if_false, Bool.and_false] at h
  split_ifs at h <;>
    first
    | (cases h; done)
    | (injection h with h'
       subst h'
       first
       | exact memset_commit_facts arr _ fresh _
           (cell_bounds_rank1 arr _ (by assumption))
       | exact memset_commit_facts arr _ fresh _
           (cell_bounds_rankN arr _ hlen)
       | (have hdims : arr.dimensions = [] := by
            have h1 : ¬arr.nd = 1 := by assumption
            have h2 : ¬1 < arr.nd := by assumption
            unfold NAArray.nd at h1 h2
            exact List.length_eq_zero.mp (by omega)
          constructor
          · intro a h0 hlt
            simp only [commitMask, PyArray_SIZE, hdims, List.prod_nil,
              MaskDtype.elsize_eq_one] at hlt ⊢
            norm_num at hlt
            have ha : a = 0 := by omega
            subst ha
            simp [updByte]
          · intro idx hidx
            rw [hdims] at hidx
            rw [List.forall₂_nil_right_iff.mp hidx]
            simp [commitMask, NAArray.maskCell, stridedOffset, updByte]))

/-- C5 witness: the spec's concrete 2 x 3 scenario: after establishing a
Boolean mask on a maskless array, byte 0 of the buffer is 1 and logical
cell (1,2) reads available. -/
theorem c5_witness :
    (ex23.flagOWNMASKNA = true → ex23.flagMASKNA = true) ∧
    ex23.flagMASKNA = false ∧
    ex23.strides.length = ex23.dimensions.length ∧
    (match PyArray_AllocateMaskNA ex23 false false true true (fun _ => 0) with
      | Except.ok post => post.maskna_data 0 = 1 ∧ post.maskCell [1, 2] = 1
      | Except.error _ => False) := by
  refine ⟨by decide, rfl, rfl, ?_⟩
  have H := c5_fresh_mask_all_available ex23 false false true true
    (fun _ => 0) _ (fun hc => by cases hc) rfl rfl rfl
  constructor
  · exact H.1 0 (by decide) (by decide)
  · exact H.2 [1, 2] (List.Forall₂.cons (by decide)
      (List.Forall₂.cons (by decide) List.Forall₂.nil))

/-! ### Claim C10 -/

theorem int_one_le_prod (L : List Int) (h : ∀ x ∈ L, 1 ≤ x) : 1 ≤ L.prod := by
  induction L with
  | nil => simp
  | cons a t ih =>
    rw [List.prod_cons]
    have h1 := h a (List.mem_cons_self _ _)
    have h2 := ih (fun x hx => h x (List.mem_cons_of_mem _ hx))
    nlinarith

theorem int_prod_take_le (L : List Int) (hpos : ∀ x ∈ L, 0 < x) {i j : Nat}
    (hij : i ≤ j) : (L.take i).prod ≤ (L.take j).prod := by
  rw [show j = i + (j - i) from by omega, List.take_add, List.prod_append]
  have h1 : 0 < (L.take i).prod :=
    List.prod_pos (fun x hx => hpos x (List.take_subset _ _ hx))
  have h2 : 1 ≤ (((L.drop i).take (j - i)).prod : Int) :=
    int_one_le_prod _ (fun x hx =>
      hpos x (List.drop_subset _ _ (List.take_subset _ _ hx)))
  nlinarith

theorem fillMaskStrides_getD_pos (e : Int) (he : 0 < e) (shape : List Nat)
    (strides : List Int) (hlen : strides.length = shape.length)
    (hpos : ∀ d ∈ shape, 0 < d) (k : Nat) (hk : k < shape.length) :
    0 < (fillMaskStrides e shape (sortedStridePerm strides)).getD k 0 := by
  have hkmem : k ∈ sortedStridePerm strides :=
    mem_sortedStridePerm.mpr (by rw [hlen]; exact hk)
  rcases List.mem_iff_get.mp hkmem with ⟨j, hj⟩
  rw [← hj, fillMaskStrides_getD e shape strides hlen j.1 j.isLt]
  apply mul_pos he
  apply List.prod_pos
  intro x hx
  rcases List.mem_map.mp hx with ⟨q, hq, rfl⟩
  have hqs : q ∈ sortedStridePerm strides := List.take_subset _ _ hq
  have hqlt : q < shape.length := hlen ▸ mem_sortedStridePerm.mp hqs
  have hmem : shape.getD q 0 ∈ shape := by
    rw [List.getD_eq_getElem _ _ hqlt]
    exact List.getElem_mem _
  exact_mod_cast hpos _ hmem

theorem c10_aux_rank1 (arr : NAArray) (dt : MaskDtype) (data : Int → Nat)
    (hnd : arr.nd = 1) :
    (∀ k, k < arr.nd →
      0 < (commitMask arr dt data [(dt.elsize : Int)]).maskna_strides.getD k 0 ∧
      ((commitMask arr dt data [(dt.elsize : Int)]).maskna_dtype.elsize : Int)
        ∣ (commitMask arr dt data [(dt.elsize : Int)]).maskna_strides.getD k 0) ∧
    (∀ idx idx', List.Forall₂ (· < ·) idx arr.dimensions →
      List.Forall₂ (· < ·) idx' arr.dimensions →
      stridedOffset idx (commitMask arr dt data [(dt.elsize : Int)]).maskna_strides
        = stridedOffset idx' (commitMask arr dt data [(dt.elsize : Int)]).maskna_strides →
      idx = idx') ∧
    (∀ idx, List.Forall₂ (· < ·) idx arr.dimensions →
      0 ≤ stridedOffset idx (commitMask arr dt data [(dt.elsize : Int)]).maskna_strides ∧
      stridedOffset idx (commitMask arr dt data [(dt.elsize : Int)]).maskna_strides
          + ((commitMask arr dt data [(dt.elsize : Int)]).maskna_dtype.elsize : Int)
        ≤ ((PyArray_SIZE arr *
            (commitMask arr dt data [(dt.elsize : Int)]).maskna_dtype.elsize : Nat) : Int)) := by
  simp only [commitMask]
  rcases List.length_eq_one.mp hnd with ⟨d, hd⟩
  refine ⟨?_, ?_, ?_⟩
  · intro k hk
    rw [hnd] at hk
    have hk0 : k = 0 := by omega
    subst hk0
    rw [MaskDtype.elsize_eq_one]
    exact ⟨by norm_num, one_dvd _⟩
  · intro idx idx' hi hi' heq
    rw [hd] at hi hi'
    rcases List.forall₂_cons_right_iff.mp hi with ⟨i, t, hit, ht, rfl⟩
    rcases List.forall₂_cons_right_iff.mp hi' with ⟨i', t', hit', ht', rfl⟩
    rw [List.forall₂_nil_right_iff.mp ht, List.forall₂_nil_right_iff.mp ht']
    rw [MaskDtype.elsize_eq_one] at heq
    simp [stridedOffset] at heq
    rw [heq]
  · intro idx hidx
    have hb := cell_bounds_rank1 arr dt hnd idx hidx
    rw [MaskDtype.elsize_eq_one] at hb ⊢
    omega

theorem c10_aux_rankN (arr : NAArray) (dt : MaskDtype) (data : Int → Nat)
    (hlen : arr.strides.length = arr.dimensions.length)
    (hpos : ∀ d ∈ arr.dimensions, 0 < d) :
    (∀ k, k < arr.nd →
      0 < (commitMask arr dt data (fillMaskStrides (dt.elsize : Int)
          arr.dimensions (sortedStridePerm arr.strides))).maskna_strides.getD k 0 ∧
      ((commitMask arr dt data (fillMaskStrides (dt.elsize : Int)
          arr.dimensions (sortedStridePerm arr.strides))).maskna_dtype.elsize : Int)
        ∣ (commitMask arr dt data (fillMaskStrides (dt.elsize : Int)
          arr.dimensions (sortedStridePerm arr.strides))).maskna_strides.getD k 0) ∧
    (∀ idx idx', List.Forall₂ (· < ·) idx arr.dimensions →
      List.Forall₂ (· < ·) idx' arr.dimensions →
      stridedOffset idx (commitMask arr dt data (fillMaskStrides (dt.elsize : Int)
          arr.dimensions (sortedStridePerm arr.strides))).maskna_strides
        = stridedOffset idx' (commitMask arr dt data (fillMaskStrides (dt.elsize : Int)
          arr.dimensions (sortedStridePerm arr.strides))).maskna_strides →
      idx = idx') ∧
    (∀ idx, List.Forall₂ (· < ·) idx arr.dimensions →
      0 ≤ stridedOffset idx (commitMask arr dt data (fillMaskStrides (dt.elsize : Int)
          arr.dimensions (sortedStridePerm arr.strides))).maskna_strides ∧
      stridedOffset idx (commitMask arr dt data (fillMaskStrides (dt.elsize : Int)
          arr.dimensions (sortedStridePerm arr.strides))).maskna_strides
          + ((commitMask arr dt data (fillMaskStrides (dt.elsize : Int)
            arr.dimensions (sortedStridePerm arr.strides))).maskna_dtype.elsize : Int)
        ≤ ((PyArray_SIZE arr *
            (commitMask arr dt data (fillMaskStrides (dt.elsize : Int)
              arr.dimensions (sortedStridePerm arr.strides))).maskna_dtype.elsize
            : Nat) : Int)) := by
  simp only [commitMask]
  refine ⟨?_, ?_, ?_⟩
  · intro k hk
    unfold NAArray.nd at hk
    refine ⟨fillMaskStrides_getD_pos _
      (by rw [MaskDtype.elsize_eq_one]; norm_num) _ _ hlen hpos k hk, ?_⟩
    rw [MaskDtype.elsize_eq_one]
    exact one_dvd _
  · intro idx idx' hi hi' heq
    exact stridedOffset_fill_inj (e := (dt.elsize : Int))
      (by rw [MaskDtype.elsize_eq_one]; norm_num) hlen hi hi' heq
  · intro idx hidx
    have hb := cell_bounds_rankN arr dt hlen idx hidx
    rw [MaskDtype.elsize_eq_one] at hb ⊢
    omega

/-- C10 counterexample: shape [0, 7] with data strides [1, 100]: the
allocation succeeds and installs mask strides [1, 0] — the second mask
stride is 0, not a strictly positive multiple of the element size, because
the running stride is multiplied by the zero extent. -/
theorem c10_counterexample :
    (PyArray_AllocateMaskNA exZeroExtent false false true true
        (fun _ => 0)).toOption.map NAArray.maskna_strides = some [1, 0] ∧
    ¬(0 < (0 : Int)) :=
  ⟨rfl, by norm_num⟩

/-- C10 (amended): for every array of rank at least 1 with all dimension
extents positive, when `PyArray_AllocateMaskNA` takes the allocation path
(no early exit fires) and succeeds, the installed mask strides are all
strictly positive multiples of the mask element size, the offset map of
the new layout is injective on logical indices (non-aliasing), and every
cell lies inside the footprint of `elementCount * elementSize` bytes
(packed). Without the positivity hypothesis a zero extent propagates a
zero stride (see the counterexample). -/
theorem c10_mask_strides_positive_packed
    (arr : NAArray) (ownmaskna multina mallocOk castOk : Bool)
    (fresh : Int → Nat) (post : NAArray)
    (hrank : 1 ≤ arr.nd)
    (hpos : ∀ d ∈ arr.dimensions, 0 < d)
    (hlen : arr.strides.length = arr.dimensions.length)
    (hown : arr.flagOWNMASKNA = false)
    (hexit : ownmaskna = true ∨ arr.flagMASKNA = false)
    (h : PyArray_AllocateMaskNA arr ownmaskna multina mallocOk castOk fresh
      = Except.ok post) :
    (∀ k, k < arr.nd → 0 < post.maskna_strides.getD k 0 ∧
      (post.maskna_dtype.elsize : Int) ∣ post.maskna_strides.getD k 0) ∧
    (∀ idx idx', List.Forall₂ (· < ·) idx arr.dimensions →
      List.Forall₂ (· < ·) idx' arr.dimensions →
      stridedOffset idx post.maskna_strides
        = stridedOffset idx' post.maskna_strides →
      idx = idx') ∧
    (∀ idx, List.Forall₂ (· < ·) idx arr.dimensions →
      0 ≤ stridedOffset idx post.maskna_strides ∧
      stridedOffset idx post.maskna_strides + (post.maskna_dtype.elsize : Int)
        ≤ ((PyArray_SIZE arr * post.maskna_dtype.elsize : Nat) : Int)) := by
  unfold PyArray_AllocateMaskNA at h
  rw [hown] at h
  rw [if_neg (by simp), if_neg (by rcases hexit with he | he <;> simp [he])] at h
  split_ifs at h <;>
    first
    | (cases h; done)
    | (injection h with h'
       subst h'
       first
       | exact c10_aux_rank1 arr _ _ (by assumption)
       | exact c10_aux_rankN arr _ _ hlen hpos
       | (exfalso
          have h1 : ¬arr.nd = 1 := by assumption
          have h2 : ¬1 < arr.nd := by assumption
          omega))

/-- C10 witness: on the 2 x 3 array the theorem's hypotheses hold and its
conclusions instantiate: the axis-0 mask stride is positive and a multiple
of the element size, and cell (1,2) sits at a non-negative offset. -/
theorem c10_witness :
    1 ≤ ex23.nd ∧ (∀ d ∈ ex23.dimensions, 0 < d) ∧
    (match PyArray_AllocateMaskNA ex23 false false true true (fun _ => 0) with
      | Except.ok post => (0 < post.maskna_strides.getD 0 0 ∧
            (post.maskna_dtype.elsize : Int) ∣ post.maskna_strides.getD 0 0) ∧
          0 ≤ stridedOffset [1, 2] post.maskna_strides
      | Except.error _ => False) := by
  refine ⟨by decide, by decide, ?_⟩
  have H := c10_mask_strides_positive_packed ex23 false false true true
    (fun _ => 0) _ (by decide) (by decide) rfl rfl (Or.inr rfl) rfl
  constructor
  · exact H.1 0 (by decide)
  · exact (H.2.2 [1, 2] (List.Forall₂.cons (by decide)
      (List.Forall₂.cons (by decide) List.Forall₂.nil))).1

/-! ### Claim C1 -/

theorem sortedStridePerm_pos_lt {strides : List Int} {a b : Nat}
    (ja jb : Fin (sortedStridePerm strides).length)
    (hja : (sortedStridePerm strides).get ja = a)
    (hjb : (sortedStridePerm strides).get jb = b)
    (hab : (strides.getD a 0).natAbs < (strides.getD b 0).natAbs) :
    ja < jb := by
  rcases lt_trichotomy ja jb with h | h | h
  · exact h
  · exfalso
    subst h
    rw [hja] at hjb
    subst hjb
    omega
  · exfalso
    have hrel := (sortedStridePerm_sorted strides).rel_get_of_lt h
    rw [hja, hjb] at hrel
    unfold stridePermLe at hrel
    rcases hrel with h1 | ⟨h1, _⟩ <;> omega

theorem c1_aux (arr : NAArray) (dt : MaskDtype) (data : Int → Nat)
    (hlen : arr.strides.length = arr.dimensions.length) :
    (∀ j, j < (sortedStridePerm arr.strides).length →
      (commitMask arr dt data (fillMaskStrides (dt.elsize : Int)
          arr.dimensions (sortedStridePerm arr.strides))).maskna_strides.getD
          ((sortedStridePerm arr.strides).getD j 0) 0
        = ((commitMask arr dt data (fillMaskStrides (dt.elsize : Int)
            arr.dimensions (sortedStridePerm arr.strides))).maskna_dtype.elsize : Int)
          * (((sortedStridePerm arr.strides).take j).map
              (fun q => (arr.dimensions.getD q 0 : Int))).prod) ∧
    ((∀ d ∈ arr.dimensions, 0 < d) →
      ∀ a b, a < arr.nd → b < arr.nd →
        (arr.strides.getD a 0).natAbs < (arr.strides.getD b 0).natAbs →
        (commitMask arr dt data (fillMaskStrides (dt.elsize : Int)
            arr.dimensions (sortedStridePerm arr.strides))).maskna_strides.getD a 0
          ≤ (commitMask arr dt data (fillMaskStrides (dt.elsize : Int)
            arr.dimensions (sortedStridePerm arr.strides))).maskna_strides.getD b 0) := by
  simp only [commitMask]
  constructor
  · intro j hj
    rw [List.getD_eq_getElem _ _ hj]
    exact fillMaskStrides_getD (dt.elsize : Int) arr.dimensions arr.strides
      hlen j hj
  · intro hpos a b ha hb hab
    unfold NAArray.nd at ha hb
    have hamem : a ∈ sortedStridePerm arr.strides :=
      mem_sortedStridePerm.mpr (by omega)
    have hbmem : b ∈ sortedStridePerm arr.strides :=
      mem_sortedStridePerm.mpr (by omega)
    rcases List.mem_iff_get.mp hamem with ⟨ja, hja⟩
    rcases List.mem_iff_get.mp hbmem with ⟨jb, hjb⟩
    have hjab : ja < jb := sortedStridePerm_pos_lt ja jb hja hjb hab
    rw [← hja, ← hjb,
      fillMaskStrides_getD (dt.elsize : Int) arr.dimensions arr.strides hlen
        ja.1 ja.isLt,
      fillMaskStrides_getD (dt.elsize : Int) arr.dimensions arr.strides hlen
        jb.1 jb.isLt]
    rw [List.map_take, List.map_take]
    apply mul_le_mul_of_nonneg_left _ (by positivity)
    apply int_prod_take_le
    · intro x hx
      rcases List.mem_map.mp hx with ⟨q, hq, rfl⟩
      have hqlt : q < arr.dimensions.length :=
        hlen ▸ mem_sortedStridePerm.mp hq
      have hmem : arr.dimensions.getD q 0 ∈ arr.dimensions := by
        rw [List.getD_eq_getElem _ _ hqlt]
        exact List.getElem_mem _
      exact_mod_cast hpos _ hmem
    · exact Nat.le_of_lt hjab

/-- C1 counterexample: rank-2 array of shape [0, 7] with data strides
[1, 100]: axis 0 has the strictly smaller absolute data stride, yet the
synthesized mask strides are [1, 0] — the axis-1 mask stride collapsed to
0 through the zero extent, so the mask strides do not sort into the same
relative order as the data strides. -/
theorem c1_counterexample :
    2 ≤ exZeroExtent.nd ∧
    (exZeroExtent.strides.getD 0 0).natAbs
      < (exZeroExtent.strides.getD 1 0).natAbs ∧
    (PyArray_AllocateMaskNA exZeroExtent false false true true
        (fun _ => 0)).toOption.map NAArray.maskna_strides = some [1, 0] ∧
    ¬((1 : Int) ≤ 0) :=
  ⟨by decide, by decide, rfl, by norm_num⟩

/-- C1 (amended): for every array of rank at least 2 on which
`PyArray_AllocateMaskNA` takes the allocation path and succeeds, the
synthesized mask strides follow the stride-sorted permutation: the axis at
position j of the ascending permutation receives mask stride
elementSize times the product of the extents of the axes placed before it
(so the axis with the smallest absolute data stride receives exactly the
element size); and provided every dimension extent is positive, an axis
with strictly smaller absolute data stride receives a mask stride less
than or equal to that of an axis with larger absolute data stride, so the
mask strides sort in the same relative order as the data strides. -/
theorem c1_mask_strides_mirror_data_order
    (arr : NAArray) (ownmaskna multina mallocOk castOk : Bool)
    (fresh : Int → Nat) (post : NAArray)
    (hrank : 2 ≤ arr.nd)
    (hlen : arr.strides.length = arr.dimensions.length)
    (hown : arr.flagOWNMASKNA = false)
    (hexit : ownmaskna = true ∨ arr.flagMASKNA = false)
    (h : PyArray_AllocateMaskNA arr ownmaskna multina mallocOk castOk fresh
      = Except.ok post) :
    (∀ j, j < (sortedStridePerm arr.strides).length →
      post.maskna_strides.getD ((sortedStridePerm arr.strides).getD j 0) 0
        = (post.maskna_dtype.elsize : Int) *
          (((sortedStridePerm arr.strides).take j).map
            (fun q => (arr.dimensions.getD q 0 : Int))).prod) ∧
    ((∀ d ∈ arr.dimensions, 0 < d) →
      ∀ a b, a < arr.nd → b < arr.nd →
        (arr.strides.getD a 0).natAbs < (arr.strides.getD b 0).natAbs →
        post.maskna_strides.getD a 0 ≤ post.maskna_strides.getD b 0) := by
  unfold PyArray_AllocateMaskNA at h
  rw [hown] at h
  rw [if_neg (by simp), if_neg (by rcases hexit with he | he <;> simp [he])] at h
  split_ifs at h <;>
    first
    | (cases h; done)
    | (injection h with h'
       subst h'
       first
       | exact c1_aux arr _ _ hlen
       | (exfalso
          have h1 : arr.nd = 1 := by assumption
          omega)
       | (exfalso
          have h1 : ¬arr.nd = 1 := by assumption
          have h2 : ¬1 < arr.nd := by assumption
          omega))

/-- C1 witness: on the 2 x 3 row-major array the smallest-stride axis
(axis 1) receives mask stride = element size, and the axis with the
smaller absolute data stride receives the smaller mask stride. -/
theorem c1_witness :
    2 ≤ ex23.nd ∧ ex23.flagOWNMASKNA = false ∧
    (match PyArray_AllocateMaskNA ex23 false false true true (fun _ => 0) with
      | Except.ok post =>
          post.maskna_strides.getD ((sortedStridePerm ex23.strides).getD 0 0) 0
            = (post.maskna_dtype.elsize : Int) *
              (((sortedStridePerm ex23.strides).take 0).map
                (fun q => (ex23.dimensions.getD q 0 : Int))).prod ∧
          post.maskna_strides.getD 1 0 ≤ post.maskna_strides.getD 0 0
      | Except.error _ => False) := by
  refine ⟨by decide, rfl, ?_⟩
  have H := c1_mask_strides_mirror_data_order ex23 false false true true
    (fun _ => 0) _ (by decide) rfl rfl (Or.inr rfl) rfl
  constructor
  · exact H.1 0 (by decide)
  · exact H.2 (by decide) 1 0 (by decide) (by decide) (by decide)

/-! ### Claim C3 -/

theorem maskCastValue_eq_zero (srcdt dstdt : MaskDtype) (v : Nat) :
    (maskCastValue srcdt dstdt v = 0 ↔ v = 0) := by
  cases srcdt <;> cases dstdt <;> unfold maskCastValue <;>
    constructor <;> intro h <;> simp_all

theorem c3_aux_memcpy (arr : NAArray) (dt : MaskDtype) (fresh : Int → Nat)
    (hnd : arr.nd = 1) (hstr : arr.maskna_strides.getD 0 0 = 1) :
    ∀ idx, List.Forall₂ (· < ·) idx arr.dimensions →
      ((commitMask arr dt (memcpyBytes arr.maskna_data fresh
          (PyArray_SIZE arr * dt.elsize)) [(dt.elsize : Int)]).maskCell idx = 0
        ↔ arr.maskCell idx = 0) := by
  intro idx hidx
  rcases List.length_eq_one.mp hnd with ⟨d, hd⟩
  rw [hd] at hidx
  rcases List.forall₂_cons_right_iff.mp hidx with ⟨i, t, hi, ht, rfl⟩
  rw [List.forall₂_nil_right_iff.mp ht]
  simp only [commitMask, NAArray.maskCell]
  have hpostoff : stridedOffset [i] [(dt.elsize : Int)] = (i : Int) := by
    simp [stridedOffset, MaskDtype.elsize_eq_one]
  have hpreoff : stridedOffset [i] arr.maskna_strides = (i : Int) := by
    cases hms : arr.maskna_strides with
    | nil => rw [hms] at hstr; simp at hstr
    | cons s rest =>
      rw [hms] at hstr
      simp only [List.getD_cons_zero] at hstr
      simp [stridedOffset, hstr]
  rw [hpostoff, hpreoff]
  have hcpy : memcpyBytes arr.maskna_data fresh (PyArray_SIZE arr * dt.elsize)
      (i : Int) = arr.maskna_data (i : Int) := by
    unfold memcpyBytes
    rw [if_pos]
    constructor
    · positivity
    · rw [MaskDtype.elsize_eq_one]
      unfold PyArray_SIZE
      rw [hd]
      simp
      exact_mod_cast hi
  rw [hcpy]

theorem c3_aux_cast1 (arr : NAArray) (dt : MaskDtype) (fresh : Int → Nat)
    (hnd : arr.nd = 1) :
    ∀ idx, List.Forall₂ (· < ·) idx arr.dimensions →
      ((commitMask arr dt (castRawArrays1D (arr.dimensions.getD 0 0)
          arr.maskna_data fresh (arr.maskna_strides.getD 0 0) (dt.elsize : Int)
          arr.maskna_dtype dt) [(dt.elsize : Int)]).maskCell idx = 0
        ↔ arr.maskCell idx = 0) := by
  intro idx hidx
  rcases List.length_eq_one.mp hnd with ⟨d, hd⟩
  rw [hd] at hidx
  rcases List.forall₂_cons_right_iff.mp hidx with ⟨i, t, hi, ht, rfl⟩
  rw [List.forall₂_nil_right_iff.mp ht]
  simp only [commitMask, NAArray.maskCell]
  have hpostoff : stridedOffset [i] [(dt.elsize : Int)] = (i : Int) := by
    simp [stridedOffset, MaskDtype.elsize_eq_one]
  have hd0 : arr.dimensions.getD 0 0 = d := by rw [hd]; rfl
  have hread : castRawArrays1D (arr.dimensions.getD 0 0) arr.maskna_data fresh
      (arr.maskna_strides.getD 0 0) (dt.elsize : Int) arr.maskna_dtype dt
      (i : Int)
      = maskCastValue arr.maskna_dtype dt
          (arr.maskna_data ((i : Int) * arr.maskna_strides.getD 0 0)) := by
    rw [MaskDtype.elsize_eq_one]
    rw [show ((1 : Nat) : Int) = (1 : Int) from rfl]
    exact castRawArrays1D_at _ _ _ _ _ _ i (by rw [hd0]; exact hi)
  have hpreoff : stridedOffset [i] arr.maskna_strides
      = (i : Int) * arr.maskna_strides.getD 0 0 := by
    cases hms : arr.maskna_strides with
    | nil => simp [stridedOffset]
    | cons s rest => simp [stridedOffset]
  rw [hpostoff, hread, hpreoff]
  exact maskCastValue_eq_zero _ _ _

theorem c3_aux_castN (arr : NAArray) (dt : MaskDtype) (fresh : Int → Nat)
    (hlen : arr.strides.length = arr.dimensions.length) :
    ∀ idx, List.Forall₂ (· < ·) idx arr.dimensions →
      ((commitMask arr dt (castRawNDimArrays arr.dimensions
          arr.maskna_data fresh arr.maskna_strides
          (fillMaskStrides (dt.elsize : Int) arr.dimensions
            (sortedStridePerm arr.strides))
          arr.maskna_dtype dt)
        (fillMaskStrides (dt.elsize : Int) arr.dimensions
          (sortedStridePerm arr.strides))).maskCell idx = 0
        ↔ arr.maskCell idx = 0) := by
  intro idx hidx
  simp only [commitMask, NAArray.maskCell]
  rw [castRawNDimArrays_at (e := (dt.elsize : Int))
    (by rw [MaskDtype.elsize_eq_one]; norm_num) hlen _ _ _ _ _ hidx]
  exact maskCastValue_eq_zero _ _ _

/-- C3: when a prior (borrowed) mask is migrated to an owned mask by a
successful `PyArray_AllocateMaskNA` call with ownership forced, every
logical element's NA/available status (mask cell zero versus nonzero)
after the call equals its status before the call, across all three rank
cases (direct copy, 1-D flat copy or strided cast, N-D strided cast),
even though the physical byte layout of the mask may change. -/
theorem c3_migration_preserves_na_status
    (arr : NAArray) (multina mallocOk castOk : Bool)
    (fresh : Int → Nat) (post : NAArray)
    (hmask : arr.flagMASKNA = true) (hown : arr.flagOWNMASKNA = false)
    (hlen : arr.strides.length = arr.dimensions.length)
    (h : PyArray_AllocateMaskNA arr true multina mallocOk castOk fresh
      = Except.ok post) :
    ∀ idx, List.Forall₂ (· < ·) idx arr.dimensions →
      (post.maskCell idx = 0 ↔ arr.maskCell idx = 0) := by
  unfold PyArray_AllocateMaskNA at h
  rw [hown, hmask] at h
  simp only [Bool.false_eq_true, if_false, Bool.not_true, Bool.false_and,
    if_true] at h
  split_ifs at h <;>
    first
    | (cases h; done)
    | (injection h with h'
       subst h'
       first
       | exact c3_aux_memcpy arr _ fresh (by assumption) (by assumption)
       | exact c3_aux_cast1 arr _ fresh (by assumption)
       | exact c3_aux_castN arr _ fresh hlen
       | (intro idx hidx
          have h1 : ¬arr.nd = 1 := by assumption
          have h2 : ¬1 < arr.nd := by assumption
          have hdims : arr.dimensions = [] := by
            unfold NAArray.nd at h1 h2
            exact List.length_eq_zero.mp (by omega)
          rw [hdims] at hidx
          rw [List.forall₂_nil_right_iff.mp hidx]
          simp [commitMask, NAArray.maskCell, stridedOffset, updByte]))

/-- C3 witness: a 2 x 2 transposed-layout borrowed mask is migrated with
ownership forced; the NA status of logical cells (0,0) (NA before) and
(0,1) (available before) is preserved. -/
theorem c3_witness :
    exMig.flagMASKNA = true ∧ exMig.flagOWNMASKNA = false ∧
    (match PyArray_AllocateMaskNA exMig true false true true (fun _ => 0) with
      | Except.ok post =>
          (post.maskCell [0, 0] = 0 ↔ exMig.maskCell [0, 0] = 0) ∧
          (post.maskCell [0, 1] = 0 ↔ exMig.maskCell [0, 1] = 0)
      | Except.error _ => False) := by
  refine ⟨rfl, rfl, ?_⟩
  have H := c3_migration_preserves_na_status exMig false true true
    (fun _ => 0) _ rfl rfl rfl rfl
  constructor
  · exact H [0, 0] (List.Forall₂.cons (by decide)
      (List.Forall₂.cons (by decide) List.Forall₂.nil))
  · exact H [0, 1] (List.Forall₂.cons (by decide)
      (List.Forall₂.cons (by decide) List.Forall₂.nil))

/-! ### Claim C8 -/

/-- C8 counterexample: a rank-1 MultiNA mask with cell value 2 (available
with payload) and stride 1, established with `multina = false`: the flat
byte copy taken by the code leaves byte 2, while the generic element-wise
cast path would store the Boolean-normalized value 1 — not byte-identical,
although both denote "available". -/
theorem c8_counterexample :
    (PyArray_AllocateMaskNA exMask2 true false true true
        (fun _ => 0)).toOption.map (fun post => post.maskna_data 0) = some 2 ∧
    castRawArrays1D 1 exMask2.maskna_data (fun _ => 0) 1 1
        MaskDtype.mask MaskDtype.bool 0 = 1 ∧
    (2 : Nat) ≠ 1 :=
  ⟨rfl, rfl, by norm_num⟩

theorem maskCastValue_of_le_one (srcdt dstdt : MaskDtype) (v : Nat)
    (hv : v ≤ 1) : maskCastValue srcdt dstdt v = v := by
  interval_cases v <;> cases dstdt <;> cases srcdt <;> rfl

theorem c8_aux (arr : NAArray) (dt : MaskDtype) (fresh : Int → Nat)
    (hnd : arr.nd = 1) (hstr : arr.maskna_strides.getD 0 0 = 1)
    (hvals : ∀ i : Nat, i < PyArray_SIZE arr → arr.maskna_data (i : Int) ≤ 1) :
    ∀ a : Int,
      memcpyBytes arr.maskna_data fresh (PyArray_SIZE arr * dt.elsize) a
        = castRawArrays1D (arr.dimensions.getD 0 0) arr.maskna_data fresh
            (arr.maskna_strides.getD 0 0) 1 arr.maskna_dtype dt a := by
  intro a
  rcases List.length_eq_one.mp hnd with ⟨d, hd⟩
  have hsize : PyArray_SIZE arr * dt.elsize = d := by
    unfold PyArray_SIZE
    rw [hd, MaskDtype.elsize_eq_one]
    simp
  have hszd : PyArray_SIZE arr = d := by
    unfold PyArray_SIZE
    rw [hd]
    simp
  have hd0 : arr.dimensions.getD 0 0 = d := by rw [hd]; rfl
  by_cases hin : 0 ≤ a ∧ a < (d : Int)
  · obtain ⟨i, rfl⟩ : ∃ i : Nat, a = (i : Int) :=
      ⟨a.toNat, (Int.toNat_of_nonneg hin.1).symm⟩
    have hi : i < d := by exact_mod_cast hin.2
    have hleft : memcpyBytes arr.maskna_data fresh
        (PyArray_SIZE arr * dt.elsize) (i : Int) = arr.maskna_data (i : Int) := by
      unfold memcpyBytes
      rw [if_pos]
      exact ⟨by positivity, by rw [hsize]; exact_mod_cast hi⟩
    rw [hleft, castRawArrays1D_at _ _ _ _ _ _ i (by rw [hd0]; exact hi), hstr,
      mul_one, maskCastValue_of_le_one _ _ _ (hvals i (by rw [hszd]; exact hi))]
  · have hleft : memcpyBytes arr.maskna_data fresh
        (PyArray_SIZE arr * dt.elsize) a = fresh a := by
      unfold memcpyBytes
      rw [if_neg]
      rw [hsize]
      exact hin
    rw [hleft, castRawArrays1D_outside _ _ _ _ _ _ _ (fun i hi => by
      rw [hd0] at hi
      intro hcon
      apply hin
      rw [← hcon]
      exact ⟨by positivity, by exact_mod_cast hi⟩)]

/-- C8 (amended): for a rank-1 array with a prior mask of stride 1 (the
mask element size) whose cells within the logical extent all hold 0 or 1,
the flat `memcpy` fast path taken by `PyArray_AllocateMaskNA` produces a
buffer byte-identical (at every byte offset) to what the generic strided
element-wise cast path would produce on the same input. Without the value
restriction the paths differ: a MultiNA payload code (e.g. 2) is copied
verbatim by `memcpy` but normalized to 1 by a cast into the Boolean
representation (see the counterexample). -/
theorem c8_fastpath_matches_cast
    (arr : NAArray) (multina mallocOk castOk : Bool) (fresh : Int → Nat)
    (post : NAArray)
    (hnd : arr.nd = 1) (hmask : arr.flagMASKNA = true)
    (hown : arr.flagOWNMASKNA = false)
    (hstr : arr.maskna_strides.getD 0 0 = 1)
    (hvals : ∀ i : Nat, i < PyArray_SIZE arr → arr.maskna_data (i : Int) ≤ 1)
    (h : PyArray_AllocateMaskNA arr true multina mallocOk castOk fresh
      = Except.ok post) :
    ∀ a : Int, post.maskna_data a
      = castRawArrays1D (arr.dimensions.getD 0 0) arr.maskna_data fresh
          (arr.maskna_strides.getD 0 0) 1 arr.maskna_dtype
          post.maskna_dtype a := by
  unfold PyArray_AllocateMaskNA at h
  rw [hown, hmask] at h
  simp only [Bool.false_eq_true, if_false, Bool.not_true, Bool.false_and,
    if_true] at h
  split_ifs at h <;>
    first
    | (cases h; done)
    | (exact absurd hnd (by assumption))
    | (exact absurd hstr (by assumption))
    | (injection h with h'
       subst h'
       exact c8_aux arr _ fresh hnd hstr hvals)

/-- C8 witness: on a rank-1 Boolean mask with cells in {0,1} and stride 1,
the fast path's buffer agrees with the generic cast path at bytes 0 and
1 (inside the copy window) and at byte 5 (outside it). -/
theorem c8_witness :
    exBorrowed.nd = 1 ∧ exBorrowed.maskna_strides.getD 0 0 = 1 ∧
    (∀ i : Nat, i < PyArray_SIZE exBorrowed →
      exBorrowed.maskna_data (i : Int) ≤ 1) ∧
    (match PyArray_AllocateMaskNA exBorrowed true false true true
        (fun _ => 0) with
      | Except.ok post =>
          post.maskna_data 0
            = castRawArrays1D (exBorrowed.dimensions.getD 0 0)
                exBorrowed.maskna_data (fun _ => 0)
                (exBorrowed.maskna_strides.getD 0 0) 1
                exBorrowed.maskna_dtype post.maskna_dtype 0 ∧
          post.maskna_data 5
            = castRawArrays1D (exBorrowed.dimensions.getD 0 0)
                exBorrowed.maskna_data (fun _ => 0)
                (exBorrowed.maskna_strides.getD 0 0) 1
                exBorrowed.maskna_dtype post.maskna_dtype 5
      | Except.error _ => False) := by
  refine ⟨rfl, rfl, by decide, ?_⟩
  have H := c8_fastpath_matches_cast exBorrowed false true true (fun _ => 0)
    _ rfl rfl rfl rfl (by decide) rfl
  exact ⟨H 0, H 5⟩
